import Mathlib

/-!
Verification of the galv backend serializers (`galv/serializers/serializers.py`)
against its specification.

The development shallowly embeds the serializer logic: Python validator methods
become Lean functions returning `Except`, Django model rows become structures,
and the surrounding framework (request context, database) is passed in
explicitly.  Parts of the repository that are not among the provided source
files (the `galv.models` module and the report-ingestion views) are modelled
from the specification; each such definition says so in its doc comment.
-/

/-- Modelled from the spec: the ordered user-level enumeration of `galv.models`
(the models module is not among the source files).  Section 3 of the spec:
`ANONYMOUS < LAB_MEMBER < TEAM_MEMBER < TEAM_ADMIN < LAB_ADMIN`. -/
inductive UserLevel
  | anonymous
  | labMember
  | teamMember
  | teamAdmin
  | labAdmin
deriving DecidableEq, Repr

/-- The numeric `.value` of a `UserLevel`, respecting the spec ordering. -/
def UserLevel.val : UserLevel → Nat
  | .anonymous => 0
  | .labMember => 1
  | .teamMember => 2
  | .teamAdmin => 3
  | .labAdmin => 4

/-- The three stored access-level thresholds of a team-owned resource
(`read_access_level`, `edit_access_level`, `delete_access_level`). -/
structure AccessLevels where
  read_access_level : Nat
  edit_access_level : Nat
  delete_access_level : Nat
deriving DecidableEq, Repr

/-- The access-level attributes submitted with a serializer write; a field is
`none` when the request does not carry that key (or after it is stripped). -/
structure AccessAttrs where
  read_access_level : Option Nat
  edit_access_level : Option Nat
  delete_access_level : Option Nat
deriving DecidableEq, Repr

/-- The invariant the spec states for every team-owned resource:
`read_access_level ≤ edit_access_level ≤ delete_access_level`. -/
def accessOrdered (l : AccessLevels) : Bool :=
  l.read_access_level ≤ l.edit_access_level &&
    l.edit_access_level ≤ l.delete_access_level

namespace WithTeamMixin

/-- Lines 727-733 of `WithTeamMixin.validate`: on update, access levels equal
to the stored values are deleted from `attrs` before any further check. -/
def dropUnchanged (inst : AccessLevels) (a : AccessAttrs) : AccessAttrs where
  read_access_level :=
    if a.read_access_level = some inst.read_access_level then none
    else a.read_access_level
  edit_access_level :=
    if a.edit_access_level = some inst.edit_access_level then none
    else a.edit_access_level
  delete_access_level :=
    if a.delete_access_level = some inst.delete_access_level then none
    else a.delete_access_level

/-- Lines 734-744 of `WithTeamMixin.validate`: the permission checks run
against the surviving (stripped) `attrs` on update.  `none` means no
`ValidationError` was raised.  Read and edit levels may only be changed by a
team member whose own level is at least the stored level being changed;
delete levels only by a team admin. -/
def permissionError (inst : AccessLevels) (userLevel : Nat) (attrs : AccessAttrs) :
    Option String :=
  if (attrs.read_access_level.isSome || attrs.edit_access_level.isSome) &&
      userLevel < UserLevel.teamMember.val then
    some "You may only change access levels if you are a team member"
  else if attrs.read_access_level.isSome && userLevel < inst.read_access_level then
    some "You may not change read_access_level because your access level is too low"
  else if attrs.edit_access_level.isSome && userLevel < inst.edit_access_level then
    some "You may not change edit_access_level because your access level is too low"
  else if attrs.delete_access_level.isSome && userLevel < UserLevel.teamAdmin.val then
    some "You may only change delete access levels if you are a team admin"
  else none

/-- `WithTeamMixin.validate` (serializers.py lines 720-759).  `inst?` is
`self.instance` (its stored levels), `userLevel` the value of
`self.instance.get_user_level(request)`, `attrs0` the submitted levels.
Returns the surviving `attrs` or the first `ValidationError` raised.  The
ordering checks of lines 745-758 compare a submitted read level against the
submitted-or-effective edit level, and a submitted edit level against the
submitted-or-effective delete level; an access level absent from `attrs`
(never submitted, or stripped as unchanged) is not checked. -/
def validate (inst? : Option AccessLevels) (userLevel : Nat) (attrs0 : AccessAttrs) :
    Except String AccessAttrs :=
  let attrs :=
    match inst? with
    | some inst => dropUnchanged inst attrs0
    | none => attrs0
  let permError : Option String :=
    match inst? with
    | some inst => permissionError inst userLevel attrs
    | none => none
  match permError with
  | some e => .error e
  | none =>
    let editLevel := attrs.edit_access_level.getD
      (match inst? with
       | some inst => inst.edit_access_level
       | none => UserLevel.teamAdmin.val)
    let deleteLevel := attrs.delete_access_level.getD
      (match inst? with
       | some inst => inst.delete_access_level
       | none => UserLevel.teamAdmin.val)
    let readViolation : Bool :=
      match attrs.read_access_level with
      | some r => decide (editLevel < r)
      | none => false
    let editViolation : Bool :=
      match attrs.edit_access_level with
      | some e => decide (deleteLevel < e)
      | none => false
    if readViolation then
      .error "Read access level must be less than or equal to edit access level"
    else if editViolation then
      .error "Edit access level must be less than or equal to delete access level"
    else .ok attrs

/-- The stored levels after a successful write applies the surviving `attrs`
to the instance. -/
def applyAttrs (inst : AccessLevels) (a : AccessAttrs) : AccessLevels where
  read_access_level := a.read_access_level.getD inst.read_access_level
  edit_access_level := a.edit_access_level.getD inst.edit_access_level
  delete_access_level := a.delete_access_level.getD inst.delete_access_level

/-- A full update write through the serializer: validate, then store the
surviving attributes over the instance. -/
def updateAccessLevels (inst : AccessLevels) (userLevel : Nat) (attrs : AccessAttrs) :
    Except String AccessLevels :=
  (validate (some inst) userLevel attrs).map (applyAttrs inst)

/-- The serializer field defaults (serializers.py lines 647-664): DRF fills an
absent access-level field with its declared `default` before validation runs.
`read` defaults to `LAB_MEMBER`, `edit` and `delete` to `TEAM_MEMBER`. -/
def fillCreateDefaults (a : AccessAttrs) : AccessAttrs where
  read_access_level := some (a.read_access_level.getD UserLevel.labMember.val)
  edit_access_level := some (a.edit_access_level.getD UserLevel.teamMember.val)
  delete_access_level := some (a.delete_access_level.getD UserLevel.teamMember.val)

/-- A full create write through the serializer: fill field defaults, validate,
then store the resulting attributes. -/
def createAccessLevels (userLevel : Nat) (attrs : AccessAttrs) :
    Except String AccessLevels :=
  (validate none userLevel (fillCreateDefaults attrs)).map fun a =>
    { read_access_level := a.read_access_level.getD UserLevel.labMember.val
      edit_access_level := a.edit_access_level.getD UserLevel.teamMember.val
      delete_access_level := a.delete_access_level.getD UserLevel.teamMember.val }

end WithTeamMixin

/-- One user as the group serializer sees it. -/
structure UserRec where
  id : Nat
  is_active : Bool
deriving DecidableEq, Repr

/-- One Django auth group as `TransparentGroupSerializer` sees it:
`isLabAdminGroup` is `hasattr(instance, "editable_lab")`, true exactly for a
lab admin group. -/
structure GroupRec where
  isLabAdminGroup : Bool
  user_set : List UserRec
deriving DecidableEq, Repr

namespace TransparentGroupSerializer

/-- `TransparentGroupSerializer.validate_users` (lines 204-207): only active
users can be added to groups. -/
def validate_users (value : List UserRec) : List UserRec :=
  value.filter (fun u => u.is_active)

/-- `TransparentGroupSerializer.update` (lines 209-216).  `user_set?` is the
validated `user_set` key, `none` when the request did not send one. -/
def update (inst : GroupRec) (user_set? : Option (List UserRec)) :
    Except String GroupRec :=
  match user_set? with
  | none => .ok inst
  | some us =>
    if inst.isLabAdminGroup && us.length < 1 then
      .error "Labs must always have at least one administrator"
    else
      .ok { inst with user_set := us }

/-- A group update as the serializer runs it: field validation
(`validate_users`) followed by `update`. -/
def updateGroup (inst : GroupRec) (raw? : Option (List UserRec)) :
    Except String GroupRec :=
  update inst (raw?.map validate_users)

end TransparentGroupSerializer

/-- One Harvester row as `HarvesterSerializer.validate_name` queries it. -/
structure HarvesterRec where
  id : Nat
  lab : Nat
  name : String
deriving DecidableEq, Repr

namespace HarvesterSerializer

/-- `HarvesterSerializer.validate_name` (lines 1316-1323).  `all` is the
`Harvester.objects` table, `inst?` is `self.instance` (`none` on create). -/
def validate_name (all : List HarvesterRec) (inst? : Option HarvesterRec)
    (value : String) : Except String String :=
  let harvesters := all.filter (fun h => h.name == value)
  let harvesters :=
    match inst? with
    | some inst =>
      ((harvesters.filter (fun (h : HarvesterRec) => h.id != inst.id)).filter
        (fun (h : HarvesterRec) => h.lab == inst.lab))
    | none => harvesters
  if harvesters.isEmpty then .ok value
  else .error "Harvester with that name already exists"

end HarvesterSerializer

/-- One `DataColumnType` row as the mapping serializer queries it. -/
structure DataColumnType where
  pk : Nat
  name : String
  data_type : String
  is_required : Bool
deriving DecidableEq, Repr

/-- One value of a `ColumnMapping.map` dictionary.  Multiplier and addition
are modelled as JSON numbers (rationals); absent keys are `none`. -/
structure MapEntry where
  column_type : Option Nat
  new_name : Option String
  multiplier : Option Rat
  addition : Option Rat
deriving DecidableEq, Repr

namespace ColumnMappingSerializer

/-- `required_column_ids` (line 1496): the pks of the required column types. -/
def requiredColumnIds (cts : List DataColumnType) : List Nat :=
  (cts.filter (fun c => c.is_required)).map (fun c => c.pk)

/-- `DataColumnType.objects.get(pk=id)`: the first row with that pk. -/
def findColumnType (cts : List DataColumnType) (id : Nat) : Option DataColumnType :=
  cts.find? (fun c => c.pk == id)

/-- The Python coercion `type_fn(x)` of lines 1526-1529 on a JSON number:
`int` truncates towards zero, `float` is the identity.  (On a JSON number the
coercion itself cannot raise.) -/
def typeFn (data_type : String) (q : Rat) : Rat :=
  if data_type = "int" then ((if 0 ≤ q then (⌊q⌋ : Int) else ⌈q⌉) : Int) else q

/-- The `ValidationError`s `validate_map` can raise, with the data each
message interpolates.  `duplicateRequired k typeName prevKey` is the message
of lines 1515-1518: it names the current raw column `k`, the required
column-type `typeName` and the raw column `prevKey` it was first assigned
to. -/
inductive MapError
  | noColumnType (k : String)
  | invalidColumnType (k : String)
  | duplicateRequired (k : String) (typeName : String) (prevKey : String)
  | renameRequired (k : String)
  | notNumericalMultiplier (k : String)
  | notNumericalAddition (k : String)
deriving DecidableEq, Repr

/-- The loop body of `ColumnMappingSerializer.validate_map` (lines 1499-1537),
threading `required_columns_supplied` (pairs of required pk and the raw column
first assigned to it).  The map is a list of key-value pairs in dictionary
order. -/
def validateMapGo (cts : List DataColumnType) (supplied : List (Nat × String)) :
    List (String × MapEntry) → Except MapError (List (String × MapEntry))
  | [] => .ok []
  | (k, v) :: rest =>
    match v.column_type with
    | none => .error (MapError.noColumnType k)
    | some id =>
      match findColumnType cts id with
      | none => .error (MapError.invalidColumnType k)
      | some ct =>
        let suppliedStep : Except MapError (List (Nat × String)) :=
          if ct.pk ∈ requiredColumnIds cts then
            match supplied.find? (fun p => p.1 == ct.pk) with
            | some p => .error (MapError.duplicateRequired k ct.name p.2)
            | none => .ok ((ct.pk, k) :: supplied)
          else .ok supplied
        match suppliedStep with
        | .error e => .error e
        | .ok supplied2 =>
          if v.new_name.isSome && ct.is_required then
            .error (MapError.renameRequired k)
          else
            let numericStep : Except MapError MapEntry :=
              if ct.data_type = "int" ∨ ct.data_type = "float" then
                .ok { v with
                       multiplier := some (typeFn ct.data_type (v.multiplier.getD 1))
                       addition := some (typeFn ct.data_type (v.addition.getD 0)) }
              else if v.multiplier.isSome then
                .error (MapError.notNumericalMultiplier k)
              else if v.addition.isSome then
                .error (MapError.notNumericalAddition k)
              else .ok v
            match numericStep with
            | .error e => .error e
            | .ok v2 =>
              match validateMapGo cts supplied2 rest with
              | .error e => .error e
              | .ok rest2 => .ok ((k, v2) :: rest2)

/-- `ColumnMappingSerializer.validate_map` (lines 1473-1538). -/
def validate_map (cts : List DataColumnType) (m : List (String × MapEntry)) :
    Except MapError (List (String × MapEntry)) :=
  validateMapGo cts [] m

/-- One value of the dictionary `get_rendered_map` returns: `multiplier` and
`addition` keys exist only for numeric column types. -/
structure RenderedEntry where
  new_name : String
  data_type : String
  multiplier : Option Rat
  addition : Option Rat
deriving DecidableEq, Repr

/-- The rendered entry `get_rendered_map` builds for one raw column (lines
1464-1470), given its resolved column type. -/
def renderMapEntry (ct : DataColumnType) (v : MapEntry) : RenderedEntry where
  new_name := v.new_name.getD ct.name
  data_type := ct.data_type
  multiplier :=
    if ct.data_type = "int" ∨ ct.data_type = "float" then some (v.multiplier.getD 1)
    else none
  addition :=
    if ct.data_type = "int" ∨ ct.data_type = "float" then some (v.addition.getD 0)
    else none

/-- `ColumnMappingSerializer.get_rendered_map` (lines 1460-1471).  A map value
whose `column_type` does not resolve raises `DataColumnType.DoesNotExist`. -/
def get_rendered_map (cts : List DataColumnType) :
    List (String × MapEntry) → Except String (List (String × RenderedEntry))
  | [] => .ok []
  | (k, v) :: rest =>
    match v.column_type.bind (findColumnType cts) with
    | none => .error "DataColumnType matching query does not exist"
    | some ct =>
      match get_rendered_map cts rest with
      | .error e => .error e
      | .ok rest2 => .ok ((k, renderMapEntry ct v) :: rest2)

/-- Modelled from the spec: the numeric transformation the import applies to a
raw value using a rendered map entry — `(raw_value + addition) * multiplier`
(the applying code lives in the external galv-harvester package; the formula
is also the docstring of `validate_map`, lines 1490-1491). -/
def applyRenderedValue (e : RenderedEntry) (raw : Rat) : Rat :=
  (raw + e.addition.getD 0) * e.multiplier.getD 1

/-- The pks a map assigns to required column types, in dictionary order: the
claim "two raw columns target the same required column-type" is a duplicate in
this list (dictionary keys are distinct). -/
def requiredTargetIds (cts : List DataColumnType) (m : List (String × MapEntry)) :
    List Nat :=
  m.filterMap (fun e =>
    e.2.column_type.bind (fun id =>
      if id ∈ requiredColumnIds cts then some id else none))

end ColumnMappingSerializer

/-- Modelled from the spec: the `FileState` lifecycle enumeration of
`galv.models` (the models module is not among the source files); section 4.1
of the spec lists these states. -/
inductive FileState
  | awaitingFileMetadata
  | awaitingMapAssignment
  | importing
  | imported
  | importFailed
deriving DecidableEq, Repr

/-- One `ObservedFile` row as `ObservedFileCreateSerializer.create` touches
it.  The stored `summary` is modelled as an opaque JSON blob compared
structurally. -/
structure ObservedFileRec where
  state : FileState
  summary : String
  mapping : Option Nat
deriving DecidableEq, Repr

/-- An error surfaced to the HTTP layer.  A DRF `ValidationError` renders as
HTTP 400; `insufficientStorage` is the distinct HTTP 507 storage failure. -/
inductive ApiError
  | validation (msg : String)
  | insufficientStorage
deriving DecidableEq, Repr

/-- Decidable equality of `Except` values, so outcomes can be checked by
`decide`. -/
instance {ε α : Type} [DecidableEq ε] [DecidableEq α] : DecidableEq (Except ε α) :=
  fun x y =>
    match x, y with
    | .ok a, .ok b =>
      if h : a = b then isTrue (by rw [h])
      else isFalse (by intro he; cases he; exact h rfl)
    | .error a, .error b =>
      if h : a = b then isTrue (by rw [h])
      else isFalse (by intro he; cases he; exact h rfl)
    | .ok _, .error _ => isFalse (by intro h; cases h)
    | .error _, .ok _ => isFalse (by intro h; cases h)

namespace ObservedFileCreateSerializer

/-- What one call of `ObservedFileCreateSerializer.create` leaves behind:
its return value or raised error, the final `state` of the observed file it
worked on (`none` when the exception fired before any file was at hand), and
whether the temporary upload copy was unlinked. -/
structure CreateFileOutcome where
  result : Except ApiError ObservedFileRec
  fileState : Option FileState
  tempFileRemoved : Bool
deriving DecidableEq, Repr

/-- Lines 1886-1915 of `ObservedFileCreateSerializer.create`: apply the chosen
mapping (or none) to the file, wrapped by the `except` clause of lines
1917-1921 (any exception marks the file `IMPORT_FAILED` and is re-raised as a
`ValidationError`) and the `finally` clause of lines 1922-1923 (the temporary
file is always unlinked).  `applicable` is the id list of
`observed_file.applicable_mappings`; `processOutcome` stands for the external
`harvester.process_data()` run together with partition and preview storage
(lines 1896-1911), which either succeeds or raises. -/
def applyMappingPhase (file : ObservedFileRec) (mapping? : Option Nat)
    (applicable : List Nat) (processOutcome : Except String Unit) :
    CreateFileOutcome :=
  match mapping? with
  | some mId =>
    if applicable.contains mId then
      match processOutcome with
      | .ok _ =>
        let f := { file with mapping := some mId, state := FileState.imported }
        { result := .ok f, fileState := some f.state, tempFileRemoved := true }
      | .error e =>
        { result := .error (.validation ("Error processing file: " ++ e))
          fileState := some FileState.importFailed, tempFileRemoved := true }
    else
      { result := .error
          (.validation "Error processing file: Mapping is not applicable to this file")
        fileState := some FileState.importFailed, tempFileRemoved := true }
  | none =>
    let f := { file with state := FileState.awaitingMapAssignment }
    { result := .ok f, fileState := some f.state, tempFileRemoved := true }

/-- `ObservedFileCreateSerializer.create` (lines 1852-1923).
`summariseOutcome` stands for the external `harvester.summarise_columns()` on
the newly uploaded bytes (lines 1873-1874), which yields the recomputed
summary or raises; `target?` is the validated `target_file_id` row,
`mappingArg?` the validated `mapping` id. -/
def create (summariseOutcome : Except String String)
    (target? : Option ObservedFileRec) (mappingArg? : Option Nat)
    (applicable : List Nat) (processOutcome : Except String Unit) :
    CreateFileOutcome :=
  match summariseOutcome with
  | .error e =>
    { result := .error (.validation ("Error processing file: " ++ e))
      fileState := none, tempFileRemoved := true }
  | .ok summary =>
    match target? with
    | some tf =>
      if tf.summary ≠ summary then
        { result := .error
            (.validation "Error processing file: Summary does not match existing file")
          fileState := some FileState.importFailed, tempFileRemoved := true }
      else
        applyMappingPhase tf (mappingArg?.orElse (fun _ => tf.mapping))
          applicable processOutcome
    | none =>
      applyMappingPhase
        { state := FileState.awaitingFileMetadata, summary := summary, mapping := none }
        mappingArg? applicable processOutcome

end ObservedFileCreateSerializer

/-- Modelled from the spec: one quota-bounded storage pool of a lab
(`galv.models` storage types are not among the source files).  `used_bytes`
is the on-demand sum of committed artifact sizes. -/
structure StorageTypeRec where
  enabled : Bool
  quota_bytes : Nat
  used_bytes : Nat
deriving DecidableEq, Repr

/-- Modelled from the spec: storage reservation (spec section 4.4) — the
storage types of the lab, given in ascending priority order, are scanned for the
first enabled one with `used_bytes + num_bytes ≤ quota_bytes`; `none` is the
`InsufficientStorage`/`StorageError` outcome. -/
def reserveStorage (storages : List StorageTypeRec) (num_bytes : Nat) :
    Option StorageTypeRec :=
  storages.find? (fun s => s.enabled && s.used_bytes + num_bytes ≤ s.quota_bytes)

/-- What one parquet-partition upload report leaves behind. -/
structure ParquetUploadOutcome where
  httpStatus : Nat
  partitionsCreated : Nat
  fileState : FileState
deriving DecidableEq, Repr

/-- Modelled from the spec: the report-ingestion handling of an
`upload_parquet` stage report (the views module is not among the source
files; spec sections 4.1 and 4.4, and `HarvesterTests.test_parquet_upload`):
storage is reserved for the partition bytes first; on failure the report is
answered with HTTP 507, no `ParquetPartition` row is created and the file
state is untouched. -/
def reportUploadParquet (storages : List StorageTypeRec) (file : ObservedFileRec)
    (num_bytes : Nat) : ParquetUploadOutcome :=
  match reserveStorage storages num_bytes with
  | some _ =>
    { httpStatus := 200, partitionsCreated := 1, fileState := file.state }
  | none =>
    { httpStatus := 507, partitionsCreated := 0, fileState := file.state }

namespace ArbitraryFileCreateSerializer

/-- What one call of `ArbitraryFileCreateSerializer.create` leaves behind:
its result and how many `ArbitraryFile` rows the transaction committed. -/
structure ArbitraryFileOutcome where
  result : Except ApiError Unit
  rowsCreated : Nat
deriving DecidableEq, Repr

/-- `ArbitraryFileCreateSerializer.create` (lines 2342-2354).  `fileSize?` is
the size of the uploaded `file` (`none` when absent).  Inside
`transaction.atomic` an `ArbitraryFile` row is created and the upload is
saved to lab storage; a `StorageError` (no storage type has room, modelled by
`reserveStorage` returning `none`) is caught and re-raised as a DRF
`ValidationError`, which escapes the atomic block, so the row is rolled
back. -/
def create (storages : List StorageTypeRec) (fileSize? : Option Nat) :
    ArbitraryFileOutcome :=
  let inTransaction : Except ApiError Nat :=
    match fileSize? with
    | none => .ok 1
    | some size =>
      match reserveStorage storages size with
      | some _ => .ok 1
      | none => .error (.validation "Unable to find a storage type to store the file")
  match inTransaction with
  | .ok rows => { result := .ok (), rowsCreated := rows }
  | .error e => { result := .error e, rowsCreated := 0 }

end ArbitraryFileCreateSerializer

/-! ## Theorems -/

/-- Claim C1: the spec says every write through the team-owned resource
serializers enforces `read_access_level ≤ edit_access_level ≤
delete_access_level`, rejecting violating writes.  The code enforces this on
create (fourth conjunct) but not on partial update: the docstring of
`WithTeamMixin.validate` promises the hierarchy, yet an update submitting
only `delete_access_level = TEAM_MEMBER` against a resource stored with
`edit_access_level = TEAM_ADMIN` is accepted by a team admin and leaves
`edit_access_level > delete_access_level`. -/
theorem c1_partial_update_breaks_access_ordering :
    WithTeamMixin.updateAccessLevels ⟨1, 3, 3⟩ 3 ⟨none, none, some 2⟩ =
      .ok ⟨1, 3, 2⟩ ∧
    accessOrdered ⟨1, 3, 3⟩ = true ∧
    accessOrdered ⟨1, 3, 2⟩ = false ∧
    WithTeamMixin.createAccessLevels 2 ⟨some 1, some 3, some 2⟩ =
      .error "Edit access level must be less than or equal to delete access level" := by
  decide

/-- Claim C9: on update, submitted access levels equal to the stored values
are stripped before the permission checks, so resubmitting the unchanged
levels of a resource is always accepted, whatever level the submitting
principal has. -/
theorem c9_resubmitting_unchanged_levels_accepted
    (inst : AccessLevels) (userLevel : Nat) :
    WithTeamMixin.updateAccessLevels inst userLevel
      ⟨some inst.read_access_level, some inst.edit_access_level,
        some inst.delete_access_level⟩ = .ok inst := by
  simp [WithTeamMixin.updateAccessLevels, WithTeamMixin.validate,
    WithTeamMixin.dropUnchanged, WithTeamMixin.permissionError,
    WithTeamMixin.applyAttrs, Except.map]

/-- Claim C10: a team-owned resource created without explicit access levels
gets `read_access_level = LAB_MEMBER`, `edit_access_level = TEAM_MEMBER`,
`delete_access_level = TEAM_MEMBER`, which satisfies the read ≤ edit ≤ delete
ordering. -/
theorem c10_create_defaults_satisfy_ordering (userLevel : Nat) :
    WithTeamMixin.createAccessLevels userLevel ⟨none, none, none⟩ =
      .ok ⟨UserLevel.labMember.val, UserLevel.teamMember.val,
        UserLevel.teamMember.val⟩ ∧
    accessOrdered ⟨UserLevel.labMember.val, UserLevel.teamMember.val,
      UserLevel.teamMember.val⟩ = true :=
  ⟨rfl, rfl⟩

/-- Claim C8: a group update never leaves a lab admin group empty — an update
emptying it (after inactive users are filtered out) raises a
`ValidationError`, a successful update of a nonempty lab admin group keeps it
nonempty, while a non-lab-admin group may be emptied. -/
theorem c8_lab_admin_group_never_emptied
    (inst : GroupRec) (raw? : Option (List UserRec)) :
    (∀ g, TransparentGroupSerializer.updateGroup inst raw? = .ok g →
      inst.isLabAdminGroup = true → inst.user_set ≠ [] → g.user_set ≠ []) ∧
    (∀ raw, raw? = some raw → inst.isLabAdminGroup = true →
      TransparentGroupSerializer.validate_users raw = [] →
      TransparentGroupSerializer.updateGroup inst raw? =
        .error "Labs must always have at least one administrator") ∧
    (∀ raw, inst.isLabAdminGroup = false →
      TransparentGroupSerializer.updateGroup inst (some raw) =
        .ok { inst with user_set := TransparentGroupSerializer.validate_users raw }) := by
  refine ⟨?_, ?_, ?_⟩
  · intro g hg hadm hne
    rcases raw? with _ | raw
    · simp only [TransparentGroupSerializer.updateGroup, Option.map,
        TransparentGroupSerializer.update] at hg
      cases hg
      exact hne
    · simp only [TransparentGroupSerializer.updateGroup, Option.map,
        TransparentGroupSerializer.update, hadm, Bool.true_and] at hg
      split at hg
      · cases hg
      · next hcond =>
        cases hg
        simpa [Nat.lt_one_iff, List.length_eq_zero] using hcond
  · intro raw hr hadm hempty
    subst hr
    simp [TransparentGroupSerializer.updateGroup,
      TransparentGroupSerializer.update, hadm, hempty]
  · intro raw hadm
    simp [TransparentGroupSerializer.updateGroup,
      TransparentGroupSerializer.update, hadm]

/-- Claim C4 (counterexample): a Harvester created in lab 1 with a name
already used only by a harvester of lab 2 is rejected — on create,
`validate_name` checks the name against every lab, not just the owning
lab. -/
theorem c4_create_rejects_cross_lab_duplicate :
    HarvesterSerializer.validate_name [⟨2, 2, "X"⟩] none "X" =
      .error "Harvester with that name already exists" ∧
    ∀ h ∈ ([⟨2, 2, "X"⟩] : List HarvesterRec), ¬(h.lab = 1) := by
  decide

/-- Claim C4 (amended): harvester-name uniqueness is scoped to the owning lab
only on rename (validation fails exactly when another harvester of the same
lab has the name); on create the check is global (validation fails exactly
when any harvester of any lab has the name). -/
theorem c4_name_uniqueness_scope
    (all : List HarvesterRec) (inst : HarvesterRec) (v : String) :
    (HarvesterSerializer.validate_name all (some inst) v =
        .error "Harvester with that name already exists" ↔
      ∃ h ∈ all, h.name = v ∧ h.id ≠ inst.id ∧ h.lab = inst.lab) ∧
    (HarvesterSerializer.validate_name all none v =
        .error "Harvester with that name already exists" ↔
      ∃ h ∈ all, h.name = v) := by
  constructor
  · cases hc : (((all.filter fun h => h.name == v).filter
        fun (h : HarvesterRec) => h.id != inst.id).filter
        fun (h : HarvesterRec) => h.lab == inst.lab).isEmpty
    · simp only [HarvesterSerializer.validate_name, hc]
      simp at hc ⊢
      tauto
    · simp only [HarvesterSerializer.validate_name, hc]
      simp at hc ⊢
      tauto
  · cases hc : (all.filter fun h => h.name == v).isEmpty
    · simp only [HarvesterSerializer.validate_name, hc]
      simp at hc ⊢
      tauto
    · simp only [HarvesterSerializer.validate_name, hc]
      simp at hc ⊢
      tauto

/-- Every error the mapping-application phase raises is a `ValidationError`
that also marks the observed file `IMPORT_FAILED`, and the temporary file is
removed on every path (the `except`/`finally` clauses of
`ObservedFileCreateSerializer.create`). -/
theorem applyMappingPhase_failure_spec (file : ObservedFileRec) (m? : Option Nat)
    (app : List Nat) (proc : Except String Unit) :
    (ObservedFileCreateSerializer.applyMappingPhase file m? app
      proc).tempFileRemoved = true ∧
    ∀ e, (ObservedFileCreateSerializer.applyMappingPhase file m? app
        proc).result = .error e →
      (∃ msg, e = ApiError.validation msg) ∧
      (ObservedFileCreateSerializer.applyMappingPhase file m? app
        proc).fileState = some FileState.importFailed := by
  rcases m? with _ | mId
  · simp [ObservedFileCreateSerializer.applyMappingPhase]
  · by_cases ha : mId ∈ app
    · cases proc with
      | error e => simp [ObservedFileCreateSerializer.applyMappingPhase, ha]
      | ok u => simp [ObservedFileCreateSerializer.applyMappingPhase, ha]
    · simp [ObservedFileCreateSerializer.applyMappingPhase, ha]

/-- Claim C5 (counterexample): not every exception leaves the file in
`IMPORT_FAILED` — on a second-stage re-upload, `summarise_columns()` runs
before `observed_file = target_file` is assigned, so when summarising the
newly uploaded bytes itself raises, the `except` clause finds no
`observed_file` to mark: a `ValidationError` is surfaced but no file state is
written, and the targeted file stays `AWAITING_MAP_ASSIGNMENT`. -/
theorem c5_summarise_failure_counterexample :
    (ObservedFileCreateSerializer.create (.error "summarise failed")
        (some ⟨FileState.awaitingMapAssignment, "s1", some 7⟩) none [7]
        (.ok ())).result =
      .error (.validation "Error processing file: summarise failed") ∧
    (ObservedFileCreateSerializer.create (.error "summarise failed")
        (some ⟨FileState.awaitingMapAssignment, "s1", some 7⟩) none [7]
        (.ok ())).fileState ≠ some FileState.importFailed ∧
    (ObservedFileCreateSerializer.create (.error "summarise failed")
        (some ⟨FileState.awaitingMapAssignment, "s1", some 7⟩) none [7]
        (.ok ())).fileState = none := by
  decide

/-- Claim C5 (amended): the temporary copy of the uploaded payload is removed
on every exit path of `ObservedFileCreateSerializer.create`; every exception
surfaces as a `ValidationError`; once the upload has been summarised (so an
observed file is at hand), any failure leaves that file in `IMPORT_FAILED`;
but when summarising the uploaded bytes itself raises, no file state is
written at all — in particular a targeted file keeps its prior state. -/
theorem c5_mapped_upload_failure_semantics
    (summariseOutcome : Except String String) (target? : Option ObservedFileRec)
    (mappingArg? : Option Nat) (applicable : List Nat) (proc : Except String Unit) :
    (ObservedFileCreateSerializer.create summariseOutcome target? mappingArg?
      applicable proc).tempFileRemoved = true ∧
    (∀ e, (ObservedFileCreateSerializer.create summariseOutcome target? mappingArg?
      applicable proc).result = .error e → ∃ msg, e = ApiError.validation msg) ∧
    (∀ s, summariseOutcome = .ok s →
      ∀ e, (ObservedFileCreateSerializer.create summariseOutcome target? mappingArg?
        applicable proc).result = .error e →
        (ObservedFileCreateSerializer.create summariseOutcome target? mappingArg?
          applicable proc).fileState = some FileState.importFailed) ∧
    (∀ e2, summariseOutcome = .error e2 →
      (ObservedFileCreateSerializer.create summariseOutcome target? mappingArg?
        applicable proc).fileState = none) := by
  cases summariseOutcome with
  | error e => simp [ObservedFileCreateSerializer.create]
  | ok s =>
    rcases target? with _ | tf
    · have h := applyMappingPhase_failure_spec
        ⟨FileState.awaitingFileMetadata, s, none⟩ mappingArg? applicable proc
      simp only [ObservedFileCreateSerializer.create]
      exact ⟨h.1, fun e he => (h.2 e he).1,
        fun s2 hs2 e he => (h.2 e he).2,
        fun e2 he2 => Except.noConfusion he2⟩
    · by_cases hsum : tf.summary = s
      · have h := applyMappingPhase_failure_spec tf
          (mappingArg?.orElse (fun _ => tf.mapping)) applicable proc
        simp only [ObservedFileCreateSerializer.create, hsum, ne_eq,
          not_true_eq_false, if_false]
        exact ⟨h.1, fun e he => (h.2 e he).1,
          fun s2 hs2 e he => (h.2 e he).2,
          fun e2 he2 => Except.noConfusion he2⟩
      · simp [ObservedFileCreateSerializer.create, hsum]

/-- Claim C2 (counterexample): a second-stage re-upload against a file in
`AWAITING_MAP_ASSIGNMENT` whose recomputed summary differs from the stored
one does not leave the file state unchanged — the `ValidationError` raised by
the mismatch is caught by the `except Exception` clause, which sets the file
to `IMPORT_FAILED`. -/
theorem c2_summary_mismatch_counterexample :
    (ObservedFileCreateSerializer.create (.ok "s2")
        (some ⟨FileState.awaitingMapAssignment, "s1", some 7⟩) none [7]
        (.ok ())).fileState ≠ some FileState.awaitingMapAssignment ∧
    (ObservedFileCreateSerializer.create (.ok "s2")
        (some ⟨FileState.awaitingMapAssignment, "s1", some 7⟩) none [7]
        (.ok ())).fileState = some FileState.importFailed := by
  decide

/-- Claim C2 (amended): a second-stage re-upload whose recomputed summary
differs from the stored summary raises a validation failure, and the target
file is marked `IMPORT_FAILED` (not left in `AWAITING_MAP_ASSIGNMENT`); the
temporary upload copy is removed. -/
theorem c2_summary_mismatch_marks_import_failed
    (tf : ObservedFileRec) (s : String) (mappingArg? : Option Nat)
    (applicable : List Nat) (proc : Except String Unit) (h : tf.summary ≠ s) :
    ObservedFileCreateSerializer.create (.ok s) (some tf) mappingArg?
        applicable proc =
      { result := .error
          (.validation "Error processing file: Summary does not match existing file")
        fileState := some FileState.importFailed
        tempFileRemoved := true } := by
  simp [ObservedFileCreateSerializer.create, h]

/-- Witness for the amended C2 theorem at a concrete mismatching re-upload. -/
theorem c2_summary_mismatch_witness :
    ObservedFileCreateSerializer.create (.ok "s2")
        (some ⟨FileState.awaitingMapAssignment, "s1", some 7⟩) none [7] (.ok ()) =
      { result := .error
          (.validation "Error processing file: Summary does not match existing file")
        fileState := some FileState.importFailed
        tempFileRemoved := true } :=
  c2_summary_mismatch_marks_import_failed
    ⟨FileState.awaitingMapAssignment, "s1", some 7⟩ "s2" none [7] (.ok ())
    (by decide)

/-- Claim C3 (counterexample): an arbitrary-file creation against a lab with
no storage room fails, but with a DRF `ValidationError` (HTTP 400), not the
distinct `InsufficientStorage` (HTTP 507) error — the serializer catches the
`StorageError` and re-raises it as a `ValidationError`. -/
theorem c3_arbitrary_file_validation_error_counterexample :
    (ArbitraryFileCreateSerializer.create [⟨true, 0, 0⟩] (some 100000)).result =
      .error (.validation "Unable to find a storage type to store the file") ∧
    (ArbitraryFileCreateSerializer.create [⟨true, 0, 0⟩] (some 100000)).result ≠
      .error ApiError.insufficientStorage := by
  decide

/-- Claim C3 (amended): when no enabled storage type of the lab has room for
the required bytes, a parquet-partition upload report is refused with HTTP
507, creates no `ParquetPartition` row and leaves an `IMPORTING` file in
`IMPORTING`; an arbitrary-file creation is refused with a `ValidationError`
and commits no `ArbitraryFile` row (the transaction rolls back). -/
theorem c3_storage_exhaustion_refuses_write
    (storages : List StorageTypeRec) (file : ObservedFileRec) (n : Nat)
    (hfull : ∀ s ∈ storages, s.enabled = true → s.quota_bytes < s.used_bytes + n)
    (hstate : file.state = FileState.importing) :
    reportUploadParquet storages file n =
      { httpStatus := 507, partitionsCreated := 0, fileState := FileState.importing } ∧
    ArbitraryFileCreateSerializer.create storages (some n) =
      { result := .error (.validation "Unable to find a storage type to store the file")
        rowsCreated := 0 } := by
  have hres : reserveStorage storages n = none := by
    rw [reserveStorage, List.find?_eq_none]
    intro s hs
    cases hen : s.enabled
    · simp
    · simp only [Bool.true_and, decide_eq_true_eq]
      exact Nat.not_le.mpr (hfull s hs hen)
  constructor
  · simp [reportUploadParquet, hres, hstate]
  · simp [ArbitraryFileCreateSerializer.create, hres]

/-- Witness for the amended C3 theorem: a lab with a single enabled storage
type of quota 0 refuses a 100000-byte parquet partition with HTTP 507 and an
arbitrary-file creation with a `ValidationError`. -/
theorem c3_storage_exhaustion_witness :
    reportUploadParquet [⟨true, 0, 0⟩] ⟨FileState.importing, "s", none⟩ 100000 =
      { httpStatus := 507, partitionsCreated := 0, fileState := FileState.importing } ∧
    ArbitraryFileCreateSerializer.create [⟨true, 0, 0⟩] (some 100000) =
      { result := .error (.validation "Unable to find a storage type to store the file")
        rowsCreated := 0 } :=
  c3_storage_exhaustion_refuses_write [⟨true, 0, 0⟩]
    ⟨FileState.importing, "s", none⟩ 100000 (by decide) rfl

namespace ColumnMappingSerializer

theorem findColumnType_pk {cts : List DataColumnType} {id : Nat} {ct : DataColumnType}
    (h : findColumnType cts id = some ct) : ct.pk = id := by
  simpa using List.find?_some h

theorem requiredTargetIds_cons (cts : List DataColumnType) (k : String) (v : MapEntry)
    (rest : List (String × MapEntry)) :
    requiredTargetIds cts ((k, v) :: rest) =
      (match v.column_type with
       | some id =>
         if id ∈ requiredColumnIds cts then id :: requiredTargetIds cts rest
         else requiredTargetIds cts rest
       | none => requiredTargetIds cts rest) := by
  rcases hvc : v.column_type with _ | id
  · simp [requiredTargetIds, List.filterMap_cons, hvc]
  · by_cases hr : id ∈ requiredColumnIds cts <;>
      simp [requiredTargetIds, List.filterMap_cons, hvc, hr]

theorem validateMapGo_ok_spec (cts : List DataColumnType) (m : List (String × MapEntry)) :
    ∀ (supplied : List (Nat × String)) (out : List (String × MapEntry)),
      validateMapGo cts supplied m = .ok out →
      (requiredTargetIds cts m).Nodup ∧
      (∀ id ∈ requiredTargetIds cts m, ∀ q ∈ supplied, q.1 ≠ id) ∧
      (∀ e ∈ m, ∃ id ct, e.2.column_type = some id ∧
        findColumnType cts id = some ct ∧
        (¬(ct.data_type = "int" ∨ ct.data_type = "float") →
          e.2.multiplier = none ∧ e.2.addition = none)) := by
  induction m with
  | nil =>
    intro supplied out h
    simp [requiredTargetIds]
  | cons e rest ih =>
    obtain ⟨k, v⟩ := e
    intro supplied out h
    rw [validateMapGo] at h
    rcases hvc : v.column_type with _ | id
    · simp only [hvc] at h
      cases h
    · simp only [hvc] at h
      rcases hfind : findColumnType cts id with _ | ct
      · simp only [hfind] at h
        cases h
      · simp only [hfind] at h
        have hpk : ct.pk = id := findColumnType_pk hfind
        by_cases hreq : ct.pk ∈ requiredColumnIds cts
        · -- required column type
          rw [if_pos hreq] at h
          rcases hfind2 : supplied.find? (fun p => p.1 == ct.pk) with _ | q
          · simp only [hfind2] at h
            -- head inserted; continue through new_name and numeric checks
            rcases hnn : v.new_name.isSome && ct.is_required with _ | _
            · rw [hnn] at h
              simp only [Bool.false_eq_true, if_false] at h
              by_cases hdt : ct.data_type = "int" ∨ ct.data_type = "float"
              · rw [if_pos hdt] at h
                rcases hrec : validateMapGo cts ((ct.pk, k) :: supplied) rest with e2 | rest2
                · simp only [hrec] at h
                  cases h
                · simp only [hrec] at h
                  obtain ⟨hnodup, hdisj, hentries⟩ := ih _ _ hrec
                  rw [requiredTargetIds_cons]
                  simp only [hvc, hpk ▸ hreq, if_pos]
                  refine ⟨?_, ?_, ?_⟩
                  · refine List.nodup_cons.mpr ⟨?_, hnodup⟩
                    intro hidmem
                    exact hdisj id hidmem (ct.pk, k) (by simp) (by simpa using hpk)
                  · intro id2 hid2 q2 hq2
                    rcases List.mem_cons.mp hid2 with h1 | h2
                    · subst h1
                      have := List.find?_eq_none.mp hfind2 q2 hq2
                      simpa [hpk] using this
                    · exact hdisj id2 h2 q2 (List.mem_cons_of_mem _ hq2)
                  · intro e2 he2
                    rcases List.mem_cons.mp he2 with h1 | h2
                    · subst h1
                      exact ⟨id, ct, hvc, hfind, fun hnum => absurd hdt hnum⟩
                    · exact hentries e2 h2
              · rw [if_neg hdt] at h
                by_cases hm : v.multiplier.isSome
                · simp only [hm, if_true] at h
                  cases h
                · simp only [hm, Bool.false_eq_true, if_false] at h
                  by_cases ha : v.addition.isSome
                  · simp only [ha, if_true] at h
                    cases h
                  · simp only [ha, Bool.false_eq_true, if_false] at h
                    rcases hrec : validateMapGo cts ((ct.pk, k) :: supplied) rest with e2 | rest2
                    · simp only [hrec] at h
                      cases h
                    · simp only [hrec] at h
                      obtain ⟨hnodup, hdisj, hentries⟩ := ih _ _ hrec
                      rw [requiredTargetIds_cons]
                      simp only [hvc, hpk ▸ hreq, if_pos]
                      refine ⟨?_, ?_, ?_⟩
                      · refine List.nodup_cons.mpr ⟨?_, hnodup⟩
                        intro hidmem
                        exact hdisj id hidmem (ct.pk, k) (by simp) (by simpa using hpk)
                      · intro id2 hid2 q2 hq2
                        rcases List.mem_cons.mp hid2 with h1 | h2
                        · subst h1
                          have := List.find?_eq_none.mp hfind2 q2 hq2
                          simpa [hpk] using this
                        · exact hdisj id2 h2 q2 (List.mem_cons_of_mem _ hq2)
                      · intro e2 he2
                        rcases List.mem_cons.mp he2 with h1 | h2
                        · subst h1
                          exact ⟨id, ct, hvc, hfind,
                            fun _ => ⟨Option.not_isSome_iff_eq_none.mp hm,
                              Option.not_isSome_iff_eq_none.mp ha⟩⟩
                        · exact hentries e2 h2
            · rw [hnn] at h
              simp only [if_true] at h
              cases h
          · simp only [hfind2] at h
            cases h
        · -- not a required column type
          rw [if_neg hreq] at h
          simp only at h
          rcases hnn : v.new_name.isSome && ct.is_required with _ | _
          · rw [hnn] at h
            simp only [Bool.false_eq_true, if_false] at h
            by_cases hdt : ct.data_type = "int" ∨ ct.data_type = "float"
            · rw [if_pos hdt] at h
              rcases hrec : validateMapGo cts supplied rest with e2 | rest2
              · simp only [hrec] at h
                cases h
              · simp only [hrec] at h
                obtain ⟨hnodup, hdisj, hentries⟩ := ih _ _ hrec
                rw [requiredTargetIds_cons]
                simp only [hvc, hpk ▸ hreq, if_neg]
                refine ⟨hnodup, hdisj, ?_⟩
                intro e2 he2
                rcases List.mem_cons.mp he2 with h1 | h2
                · subst h1
                  exact ⟨id, ct, hvc, hfind, fun hnum => absurd hdt hnum⟩
                · exact hentries e2 h2
            · rw [if_neg hdt] at h
              by_cases hm : v.multiplier.isSome
              · simp only [hm, if_true] at h
                cases h
              · simp only [hm, Bool.false_eq_true, if_false] at h
                by_cases ha : v.addition.isSome
                · simp only [ha, if_true] at h
                  cases h
                · simp only [ha, Bool.false_eq_true, if_false] at h
                  rcases hrec : validateMapGo cts supplied rest with e2 | rest2
                  · simp only [hrec] at h
                    cases h
                  · simp only [hrec] at h
                    obtain ⟨hnodup, hdisj, hentries⟩ := ih _ _ hrec
                    rw [requiredTargetIds_cons]
                    simp only [hvc, hpk ▸ hreq, if_neg]
                    refine ⟨hnodup, hdisj, ?_⟩
                    intro e2 he2
                    rcases List.mem_cons.mp he2 with h1 | h2
                    · subst h1
                      exact ⟨id, ct, hvc, hfind,
                        fun _ => ⟨Option.not_isSome_iff_eq_none.mp hm,
                          Option.not_isSome_iff_eq_none.mp ha⟩⟩
                    · exact hentries e2 h2
          · rw [hnn] at h
            simp only [if_true] at h
            cases h

theorem validateMapGo_no_dup_error (cts : List DataColumnType) (m : List (String × MapEntry)) :
    ∀ (supplied : List (Nat × String)),
      (requiredTargetIds cts m).Nodup →
      (∀ q ∈ supplied, q.1 ∉ requiredTargetIds cts m) →
      ∀ k t p, validateMapGo cts supplied m ≠ .error (.duplicateRequired k t p) := by
  induction m with
  | nil =>
    intro supplied _ _ k t p h
    rw [validateMapGo] at h
    cases h
  | cons e rest ih =>
    obtain ⟨k0, v⟩ := e
    intro supplied hnd hdisj k t p h
    rw [validateMapGo] at h
    rcases hvc : v.column_type with _ | id
    · simp only [hvc] at h
      simp at h
    · simp only [hvc] at h
      rcases hfind : findColumnType cts id with _ | ct
      · simp only [hfind] at h
        simp at h
      · simp only [hfind] at h
        have hpk : ct.pk = id := findColumnType_pk hfind
        rw [requiredTargetIds_cons] at hnd hdisj
        simp only [hvc] at hnd hdisj
        by_cases hreq : ct.pk ∈ requiredColumnIds cts
        · rw [if_pos hreq] at h
          rw [if_pos (hpk ▸ hreq)] at hnd hdisj
          have hid_notin : id ∉ requiredTargetIds cts rest :=
            (List.nodup_cons.mp hnd).1
          have hnd' : (requiredTargetIds cts rest).Nodup :=
            (List.nodup_cons.mp hnd).2
          rcases hfind2 : supplied.find? (fun p => p.1 == ct.pk) with _ | q
          · simp only [hfind2] at h
            have hdisj' : ∀ q2 ∈ (ct.pk, k0) :: supplied,
                q2.1 ∉ requiredTargetIds cts rest := by
              intro q2 hq2
              rcases List.mem_cons.mp hq2 with h1 | h1
              · subst h1
                simpa [hpk] using hid_notin
              · intro hmem
                exact hdisj q2 h1 (List.mem_cons_of_mem _ hmem)
            rcases hnn : v.new_name.isSome && ct.is_required with _ | _
            · rw [hnn] at h
              simp only [Bool.false_eq_true, if_false] at h
              by_cases hdt : ct.data_type = "int" ∨ ct.data_type = "float"
              · rw [if_pos hdt] at h
                rcases hrec : validateMapGo cts ((ct.pk, k0) :: supplied) rest
                    with e2 | rest2
                · simp only [hrec] at h
                  simp at h
                  exact ih _ hnd' hdisj' k t p (by rw [hrec, h])
                · simp only [hrec] at h
                  cases h
              · rw [if_neg hdt] at h
                by_cases hm : v.multiplier.isSome
                · simp only [hm, if_true] at h
                  simp at h
                · simp only [hm, Bool.false_eq_true, if_false] at h
                  by_cases ha : v.addition.isSome
                  · simp only [ha, if_true] at h
                    simp at h
                  · simp only [ha, Bool.false_eq_true, if_false] at h
                    rcases hrec : validateMapGo cts ((ct.pk, k0) :: supplied) rest
                        with e2 | rest2
                    · simp only [hrec] at h
                      simp at h
                      exact ih _ hnd' hdisj' k t p (by rw [hrec, h])
                    · simp only [hrec] at h
                      cases h
            · rw [hnn] at h
              simp only [if_true] at h
              simp at h
          · simp only [hfind2] at h
            have hq_mem : q ∈ supplied := List.mem_of_find?_eq_some hfind2
            have hq_pk : q.1 = ct.pk := by
              simpa using List.find?_some hfind2
            have := hdisj q hq_mem
            rw [hq_pk, hpk] at this
            exact absurd (List.mem_cons_self id _) this
        · rw [if_neg hreq] at h
          rw [if_neg (by rwa [hpk] at hreq)] at hnd hdisj
          simp only at h
          have hdisj' : ∀ q2 ∈ supplied, q2.1 ∉ requiredTargetIds cts rest := hdisj
          rcases hnn : v.new_name.isSome && ct.is_required with _ | _
          · rw [hnn] at h
            simp only [Bool.false_eq_true, if_false] at h
            by_cases hdt : ct.data_type = "int" ∨ ct.data_type = "float"
            · rw [if_pos hdt] at h
              rcases hrec : validateMapGo cts supplied rest with e2 | rest2
              · simp only [hrec] at h
                simp at h
                exact ih _ hnd hdisj' k t p (by rw [hrec, h])
              · simp only [hrec] at h
                cases h
            · rw [if_neg hdt] at h
              by_cases hm : v.multiplier.isSome
              · simp only [hm, if_true] at h
                simp at h
              · simp only [hm, Bool.false_eq_true, if_false] at h
                by_cases ha : v.addition.isSome
                · simp only [ha, if_true] at h
                  simp at h
                · simp only [ha, Bool.false_eq_true, if_false] at h
                  rcases hrec : validateMapGo cts supplied rest with e2 | rest2
                  · simp only [hrec] at h
                    simp at h
                    exact ih _ hnd hdisj' k t p (by rw [hrec, h])
                  · simp only [hrec] at h
                    cases h
          · rw [hnn] at h
            simp only [if_true] at h
            simp at h


theorem validateMapGo_dup_error_spec (cts : List DataColumnType)
    (m : List (String × MapEntry)) :
    ∀ (supplied : List (Nat × String)) (k t p : String),
      (m.map Prod.fst).Nodup →
      (∀ q ∈ supplied, q.2 ∉ m.map Prod.fst) →
      validateMapGo cts supplied m = .error (.duplicateRequired k t p) →
      p ≠ k ∧ ∃ id ct, findColumnType cts id = some ct ∧ ct.name = t ∧
        id ∈ requiredColumnIds cts ∧
        (∃ v2, (k, v2) ∈ m ∧ v2.column_type = some id) ∧
        ((id, p) ∈ supplied ∨ ∃ v1, (p, v1) ∈ m ∧ v1.column_type = some id) := by
  induction m with
  | nil =>
    intro supplied k t p _ _ h
    rw [validateMapGo] at h
    cases h
  | cons e rest ih =>
    obtain ⟨k0, v⟩ := e
    intro supplied k t p hkeys hkeys2 h
    rw [List.map_cons] at hkeys hkeys2
    have hk0_notin : k0 ∉ rest.map Prod.fst := (List.nodup_cons.mp hkeys).1
    have hkeys' : (rest.map Prod.fst).Nodup := (List.nodup_cons.mp hkeys).2
    rw [validateMapGo] at h
    rcases hvc : v.column_type with _ | id
    · simp only [hvc] at h
      simp at h
    · simp only [hvc] at h
      rcases hfind : findColumnType cts id with _ | ct
      · simp only [hfind] at h
        simp at h
      · simp only [hfind] at h
        have hpk : ct.pk = id := findColumnType_pk hfind
        by_cases hreq : ct.pk ∈ requiredColumnIds cts
        · rw [if_pos hreq] at h
          rcases hfind2 : supplied.find? (fun p => p.1 == ct.pk) with _ | q
          · simp only [hfind2] at h
            have hkeys2' : ∀ q2 ∈ (ct.pk, k0) :: supplied,
                q2.2 ∉ rest.map Prod.fst := by
              intro q2 hq2
              rcases List.mem_cons.mp hq2 with h1 | h1
              · subst h1
                exact hk0_notin
              · intro hmem
                exact hkeys2 q2 h1 (List.mem_cons_of_mem _ hmem)
            rcases hnn : v.new_name.isSome && ct.is_required with _ | _
            · rw [hnn] at h
              simp only [Bool.false_eq_true, if_false] at h
              by_cases hdt : ct.data_type = "int" ∨ ct.data_type = "float"
              · rw [if_pos hdt] at h
                rcases hrec : validateMapGo cts ((ct.pk, k0) :: supplied) rest
                    with e2 | rest2
                · simp only [hrec] at h
                  simp at h
                  obtain ⟨hne, id2, ct2, hf2, hn2, hr2, ⟨v2, hv2, hv2c⟩, hlast⟩ :=
                    ih _ k t p hkeys' hkeys2' (by rw [hrec, h])
                  refine ⟨hne, id2, ct2, hf2, hn2, hr2,
                    ⟨v2, List.mem_cons_of_mem _ hv2, hv2c⟩, ?_⟩
                  rcases hlast with hsup | ⟨v1, hv1, hv1c⟩
                  · rcases List.mem_cons.mp hsup with h1 | h1
                    · simp only [Prod.mk.injEq] at h1
                      obtain ⟨h1a, h1b⟩ := h1
                      subst h1a
                      subst h1b
                      exact Or.inr ⟨v, List.mem_cons_self _ _, by rw [hvc, hpk]⟩
                    · exact Or.inl h1
                  · exact Or.inr ⟨v1, List.mem_cons_of_mem _ hv1, hv1c⟩
                · simp only [hrec] at h
                  cases h
              · rw [if_neg hdt] at h
                by_cases hm : v.multiplier.isSome
                · simp only [hm, if_true] at h
                  simp at h
                · simp only [hm, Bool.false_eq_true, if_false] at h
                  by_cases ha : v.addition.isSome
                  · simp only [ha, if_true] at h
                    simp at h
                  · simp only [ha, Bool.false_eq_true, if_false] at h
                    rcases hrec : validateMapGo cts ((ct.pk, k0) :: supplied) rest
                        with e2 | rest2
                    · simp only [hrec] at h
                      simp at h
                      obtain ⟨hne, id2, ct2, hf2, hn2, hr2, ⟨v2, hv2, hv2c⟩, hlast⟩ :=
                        ih _ k t p hkeys' hkeys2' (by rw [hrec, h])
                      refine ⟨hne, id2, ct2, hf2, hn2, hr2,
                        ⟨v2, List.mem_cons_of_mem _ hv2, hv2c⟩, ?_⟩
                      rcases hlast with hsup | ⟨v1, hv1, hv1c⟩
                      · rcases List.mem_cons.mp hsup with h1 | h1
                        · simp only [Prod.mk.injEq] at h1
                          obtain ⟨h1a, h1b⟩ := h1
                          subst h1a
                          subst h1b
                          exact Or.inr ⟨v, List.mem_cons_self _ _,
                            by rw [hvc, hpk]⟩
                        · exact Or.inl h1
                      · exact Or.inr ⟨v1, List.mem_cons_of_mem _ hv1, hv1c⟩
                    · simp only [hrec] at h
                      cases h
            · rw [hnn] at h
              simp only [if_true] at h
              simp at h
          · simp only [hfind2] at h
            simp at h
            obtain ⟨hk, ht, hp⟩ := h
            have hq_mem : q ∈ supplied := List.mem_of_find?_eq_some hfind2
            have hq_pk : q.1 = ct.pk := by
              simpa using List.find?_some hfind2
            refine ⟨?_, id, ct, hfind, ht, hpk ▸ hreq,
              ⟨v, by rw [← hk]; exact List.mem_cons_self _ _, hvc⟩, ?_⟩
            · intro hpe
              have := hkeys2 q hq_mem
              rw [hp, hpe, ← hk] at this
              exact this (by simp)
            · left
              have : q = (id, p) := by
                ext
                · rw [hq_pk, hpk]
                · rw [hp]
              rwa [← this]
        · rw [if_neg hreq] at h
          simp only at h
          have hkeys2' : ∀ q2 ∈ supplied, q2.2 ∉ rest.map Prod.fst := by
            intro q2 hq2 hmem
            exact hkeys2 q2 hq2 (List.mem_cons_of_mem _ hmem)
          rcases hnn : v.new_name.isSome && ct.is_required with _ | _
          · rw [hnn] at h
            simp only [Bool.false_eq_true, if_false] at h
            by_cases hdt : ct.data_type = "int" ∨ ct.data_type = "float"
            · rw [if_pos hdt] at h
              rcases hrec : validateMapGo cts supplied rest with e2 | rest2
              · simp only [hrec] at h
                simp at h
                obtain ⟨hne, id2, ct2, hf2, hn2, hr2, ⟨v2, hv2, hv2c⟩, hlast⟩ :=
                  ih _ k t p hkeys' hkeys2' (by rw [hrec, h])
                refine ⟨hne, id2, ct2, hf2, hn2, hr2,
                  ⟨v2, List.mem_cons_of_mem _ hv2, hv2c⟩, ?_⟩
                rcases hlast with hsup | ⟨v1, hv1, hv1c⟩
                · exact Or.inl hsup
                · exact Or.inr ⟨v1, List.mem_cons_of_mem _ hv1, hv1c⟩
              · simp only [hrec] at h
                cases h
            · rw [if_neg hdt] at h
              by_cases hm : v.multiplier.isSome
              · simp only [hm, if_true] at h
                simp at h
              · simp only [hm, Bool.false_eq_true, if_false] at h
                by_cases ha : v.addition.isSome
                · simp only [ha, if_true] at h
                  simp at h
                · simp only [ha, Bool.false_eq_true, if_false] at h
                  rcases hrec : validateMapGo cts supplied rest with e2 | rest2
                  · simp only [hrec] at h
                    simp at h
                    obtain ⟨hne, id2, ct2, hf2, hn2, hr2, ⟨v2, hv2, hv2c⟩, hlast⟩ :=
                      ih _ k t p hkeys' hkeys2' (by rw [hrec, h])
                    refine ⟨hne, id2, ct2, hf2, hn2, hr2,
                      ⟨v2, List.mem_cons_of_mem _ hv2, hv2c⟩, ?_⟩
                    rcases hlast with hsup | ⟨v1, hv1, hv1c⟩
                    · exact Or.inl hsup
                    · exact Or.inr ⟨v1, List.mem_cons_of_mem _ hv1, hv1c⟩
                  · simp only [hrec] at h
                    cases h
          · rw [hnn] at h
            simp only [if_true] at h
            simp at h



theorem get_rendered_map_mem (cts : List DataColumnType)
    (m : List (String × MapEntry)) :
    ∀ (r : List (String × RenderedEntry)), get_rendered_map cts m = .ok r →
      ∀ k v, (k, v) ∈ m →
        ∃ ct, v.column_type.bind (findColumnType cts) = some ct ∧
          (k, renderMapEntry ct v) ∈ r := by
  induction m with
  | nil =>
    intro r h k v hm
    cases hm
  | cons e rest ih =>
    obtain ⟨k0, v0⟩ := e
    intro r h k v hm
    rw [get_rendered_map] at h
    rcases hb : v0.column_type.bind (findColumnType cts) with _ | ct0
    · simp only [hb] at h
      cases h
    · simp only [hb] at h
      rcases hrec : get_rendered_map cts rest with e2 | rest2
      · simp only [hrec] at h
        cases h
      · simp only [hrec] at h
        cases h
        rcases List.mem_cons.mp hm with h1 | h1
        · simp only [Prod.mk.injEq] at h1
          obtain ⟨h1a, h1b⟩ := h1
          subst h1a
          subst h1b
          exact ⟨ct0, hb, List.mem_cons_self _ _⟩
        · obtain ⟨ct, hc, hmem⟩ := ih rest2 hrec k v h1
          exact ⟨ct, hc, List.mem_cons_of_mem _ hmem⟩

end ColumnMappingSerializer

open ColumnMappingSerializer in
/-- Claim C6: in `validate_map`, each required column-type may be targeted by
at most one raw column.  (a) A `duplicateRequired` rejection names two raw
columns and a required column-type such that both named columns really target
that required type in the submitted map (and, keys being distinct in a
dictionary, the two columns differ); (b) when no two raw columns target the
same required type, no such rejection is ever raised; (c) a map in which two
raw columns do target the same required type is never accepted. -/
theorem c6_duplicate_required_columns (cts : List DataColumnType)
    (m : List (String × MapEntry)) :
    (∀ k t p, validate_map cts m = .error (.duplicateRequired k t p) →
      (m.map Prod.fst).Nodup →
      p ≠ k ∧ ∃ id ct, findColumnType cts id = some ct ∧ ct.name = t ∧
        id ∈ requiredColumnIds cts ∧
        (∃ v2, (k, v2) ∈ m ∧ v2.column_type = some id) ∧
        (∃ v1, (p, v1) ∈ m ∧ v1.column_type = some id)) ∧
    ((requiredTargetIds cts m).Nodup →
      ∀ k t p, validate_map cts m ≠ .error (.duplicateRequired k t p)) ∧
    (¬(requiredTargetIds cts m).Nodup →
      ∀ out, validate_map cts m ≠ .ok out) := by
  refine ⟨?_, ?_, ?_⟩
  · intro k t p h hkeys
    obtain ⟨hne, id, ct, h1, h2, h3, h4, h5⟩ :=
      validateMapGo_dup_error_spec cts m [] k t p hkeys (by simp) h
    refine ⟨hne, id, ct, h1, h2, h3, h4, ?_⟩
    rcases h5 with h5 | h5
    · cases h5
    · exact h5
  · intro hnd k t p
    exact validateMapGo_no_dup_error cts m [] hnd (by simp) k t p
  · intro hnotnd out hok
    exact hnotnd (validateMapGo_ok_spec cts m [] out hok).1

open ColumnMappingSerializer in
/-- Claim C7: for a numeric (`int`/`float`) column type, `multiplier` and
`addition` are optional and default to 1 and 0 in the rendered map, applied
as `(raw_value + addition) * multiplier`; the rendered map contains exactly
the entry `renderMapEntry` builds for each raw column; and for a non-numeric
column type, supplying a multiplier or an addition makes `validate_map`
reject the map. -/
theorem c7_numeric_defaults_and_rejection (cts : List DataColumnType)
    (m : List (String × MapEntry)) (k : String) (v : MapEntry)
    (ct : DataColumnType) (raw : Rat) :
    ((ct.data_type = "int" ∨ ct.data_type = "float") →
      (renderMapEntry ct v).multiplier = some (v.multiplier.getD 1) ∧
      (renderMapEntry ct v).addition = some (v.addition.getD 0) ∧
      applyRenderedValue (renderMapEntry ct v) raw =
        (raw + v.addition.getD 0) * v.multiplier.getD 1) ∧
    (∀ r, get_rendered_map cts m = .ok r → (k, v) ∈ m →
      v.column_type.bind (findColumnType cts) = some ct →
      (k, renderMapEntry ct v) ∈ r) ∧
    (¬(ct.data_type = "int" ∨ ct.data_type = "float") →
      (k, v) ∈ m → v.column_type.bind (findColumnType cts) = some ct →
      (v.multiplier.isSome ∨ v.addition.isSome) →
      ∀ out, validate_map cts m ≠ .ok out) := by
  refine ⟨?_, ?_, ?_⟩
  · intro hdt
    refine ⟨by simp [renderMapEntry, hdt], by simp [renderMapEntry, hdt], ?_⟩
    simp only [applyRenderedValue, renderMapEntry]
    rw [if_pos hdt, if_pos hdt]
    rfl
  · intro r hr hm hbind
    obtain ⟨ct2, hc2, hmem⟩ := get_rendered_map_mem cts m r hr k v hm
    rw [hbind] at hc2
    cases hc2
    exact hmem
  · intro hnum hm hbind hsome out hok
    obtain ⟨id, ct2, hcid, hfind, hnonnum⟩ :=
      (validateMapGo_ok_spec cts m [] out hok).2.2 (k, v) hm
    rw [hcid] at hbind
    have hbind2 : findColumnType cts id = some ct := hbind
    rw [hbind2] at hfind
    cases hfind
    obtain ⟨hmul, hadd⟩ := hnonnum hnum
    rcases hsome with hs | hs
    · rw [hmul] at hs
      cases hs
    · rw [hadd] at hs
      cases hs

/-- Concrete check for C6: a map assigning raw columns a and b to the same
required column-type is rejected with the message data naming both columns
and the type, while the same map retargeted to distinct types is accepted. -/
theorem c6_duplicate_required_witness :
    ColumnMappingSerializer.validate_map
      [⟨10, "Voltage_V", "float", true⟩, ⟨11, "Label", "str", false⟩]
      [("a", ⟨some 10, none, none, none⟩), ("b", ⟨some 10, none, none, none⟩)] =
      .error (.duplicateRequired "b" "Voltage_V" "a") ∧
    ColumnMappingSerializer.validate_map
      [⟨10, "Voltage_V", "float", true⟩, ⟨11, "Label", "str", false⟩]
      [("a", ⟨some 10, none, none, none⟩), ("b", ⟨some 11, none, none, none⟩)] =
      .ok [("a", ⟨some 10, none, some 1, some 0⟩),
        ("b", ⟨some 11, none, none, none⟩)] := by
  decide

/-- Concrete check for C7: omitted multiplier and addition render as 1 and 0
for a numeric column; a multiplier on a non-numeric column is rejected; and
the rendered transformation computes `(raw + addition) * multiplier`. -/
theorem c7_numeric_defaults_witness :
    ColumnMappingSerializer.get_rendered_map [⟨10, "Voltage_V", "float", true⟩]
      [("a", ⟨some 10, none, none, some 5⟩)] =
      .ok [("a", ⟨"Voltage_V", "float", some 1, some 5⟩)] ∧
    ColumnMappingSerializer.validate_map [⟨11, "Label", "str", false⟩]
      [("b", ⟨some 11, none, some 2, none⟩)] =
      .error (.notNumericalMultiplier "b") ∧
    ColumnMappingSerializer.applyRenderedValue
      ⟨"Voltage_V", "float", some 3, some 273⟩ 7 = (7 + 273) * 3 := by
  exact ⟨rfl, by decide, rfl⟩
